/-
Verification of the Center Artwork Tool state engine (src/src/App.tsx).

The TypeScript source manipulates JavaScript numbers (IEEE-754 doubles) and
strings.  The embedding models a JavaScript number as an exact rational, a
NaN marker, or a signed infinity: rational arithmetic is exact where doubles
round, which coincides with JavaScript on the small terminating decimals this
program manipulates, and overflow past the double range (magnitude at least
2 ^ 1024) is mapped to infinity, matching JavaScript on every non-borderline
magnitude.  Rationals are represented by possibly-unnormalized fractions with
a positive denominator (`Frac`), whose operations are plain integer
arithmetic and therefore evaluate inside the Lean kernel; `Frac.val` embeds
them into `ℚ` for abstract reasoning.  String/number conversions
(`Number(...)`, `parseFloat`, template interpolation) are modelled by
executable functions over lists of characters, following the ECMAScript
algorithms on the fragment of inputs this program can produce (decimal
numerals; hexadecimal and other exotic `Number` forms never occur here and
are omitted).
-/
import Mathlib

set_option maxRecDepth 100000

/-- An exact rational as an unnormalized fraction with positive denominator.
No gcd normalization is performed, so every operation is plain integer
arithmetic that the kernel can evaluate; equality of values is expressed
through `Frac.val`, not through structural equality. -/
structure Frac where
  n : ℤ
  d : ℤ
  dpos : 0 < d

/-- Builds the fraction `n / d`, defaulting to denominator 1 if `d = 0`. -/
def frc (n : ℤ) (d : ℕ) : Frac :=
  if h : 0 < (d : ℤ) then ⟨n, d, h⟩ else ⟨n, 1, one_pos⟩

/-- The rational value of a fraction. -/
def Frac.val (a : Frac) : ℚ := (a.n : ℚ) / (a.d : ℚ)

/-- Fraction addition. -/
def Frac.add (a b : Frac) : Frac :=
  ⟨a.n * b.d + b.n * a.d, a.d * b.d, mul_pos a.dpos b.dpos⟩

/-- Fraction negation. -/
def Frac.neg (a : Frac) : Frac := ⟨-a.n, a.d, a.dpos⟩

/-- Fraction multiplication. -/
def Frac.mul (a b : Frac) : Frac := ⟨a.n * b.n, a.d * b.d, mul_pos a.dpos b.dpos⟩

/-- Fraction division; the divisor is assumed nonzero (callers check), with a
harmless default otherwise. -/
def Frac.div (a b : Frac) : Frac :=
  if h : b.n = 0 then ⟨0, 1, one_pos⟩
  else
    ⟨a.n * b.d * b.n.sign, a.d * (b.n.natAbs : ℤ),
      mul_pos a.dpos (by exact_mod_cast Int.natAbs_pos.mpr h)⟩

/-- Boolean comparison `a ≤ b` by cross-multiplication. -/
def Frac.ble (a b : Frac) : Bool := decide (a.n * b.d ≤ b.n * a.d)

/-- Boolean comparison `a < b` by cross-multiplication. -/
def Frac.blt (a b : Frac) : Bool := decide (a.n * b.d < b.n * a.d)

/-- The floor of a fraction (euclidean division by a positive denominator). -/
def Frac.floor (a : Frac) : ℤ := a.n / a.d

/-- Value equality of fractions, by cross-multiplication. -/
def Frac.veq (a b : Frac) : Prop := a.n * b.d = b.n * a.d

instance (a b : Frac) : Decidable (a.veq b) := by unfold Frac.veq; infer_instance

/-- Model of a JavaScript IEEE-754 number: an exact rational (`num`), the
NaN value (`nan`), or a signed infinity (`inf true` is positive infinity). -/
inductive JsNum where
  | num (q : Frac)
  | nan
  | inf (pos : Bool)

/-- Threshold past which a JavaScript double overflows to infinity (the
numerator is computed in `ℕ` and cast, which the kernel evaluates directly). -/
def OVERFLOW : Frac := frc (((2 ^ 256 : ℕ) ^ 4 : ℕ) : ℤ) 1

/-- Injects an exact rational into the model, sending magnitudes past the
double range to the corresponding infinity, as JavaScript arithmetic does. -/
def JsNum.ofFrac (q : Frac) : JsNum :=
  if q.ble (OVERFLOW.neg) then .inf false
  else if OVERFLOW.ble q then .inf true
  else .num q

/-- JavaScript unary minus. -/
def jneg : JsNum → JsNum
  | .num q => .num q.neg
  | .nan => .nan
  | .inf p => .inf (!p)

/-- JavaScript addition: NaN propagates, opposite infinities give NaN. -/
def jadd : JsNum → JsNum → JsNum
  | .nan, _ => .nan
  | _, .nan => .nan
  | .inf p, .inf r => if p = r then .inf p else .nan
  | .inf p, .num _ => .inf p
  | .num _, .inf r => .inf r
  | .num a, .num b => JsNum.ofFrac (a.add b)

/-- JavaScript subtraction `a - b`, which is `a + (-b)`. -/
def jsub (a b : JsNum) : JsNum := jadd a (jneg b)

/-- JavaScript multiplication: NaN propagates, infinity times zero is NaN. -/
def jmul : JsNum → JsNum → JsNum
  | .nan, _ => .nan
  | _, .nan => .nan
  | .inf p, .inf r => .inf (p == r)
  | .inf p, .num b => if b.n = 0 then .nan else .inf (p == decide (0 < b.n))
  | .num a, .inf r => if a.n = 0 then .nan else .inf (r == decide (0 < a.n))
  | .num a, .num b => JsNum.ofFrac (a.mul b)

/-- JavaScript division (zero is treated as positive zero, the only zero the
exact-rational model has; the program only ever divides by 2 and 10 ^ 8). -/
def jdiv : JsNum → JsNum → JsNum
  | .nan, _ => .nan
  | _, .nan => .nan
  | .inf _, .inf _ => .nan
  | .inf p, .num d => if d.n < 0 then .inf (!p) else .inf p
  | .num _, .inf _ => .num (frc 0 1)
  | .num a, .num d =>
      if d.n = 0 then (if a.n = 0 then .nan else if a.n < 0 then .inf false else .inf true)
      else JsNum.ofFrac (a.div d)

/-- JavaScript `Math.round`: nearest integer, halves toward positive
infinity; NaN and infinities are returned unchanged. -/
def jround : JsNum → JsNum
  | .num q => .num (frc (Frac.floor (q.add (frc 1 2))) 1)
  | x => x

/-- True exactly when the number is neither NaN nor an infinity, matching
`!isNaN(x) && isFinite(x)` on the model. -/
def jfinite : JsNum → Bool
  | .num _ => true
  | _ => false

/-- True exactly on the NaN value. -/
def JsNum.isNaN : JsNum → Bool
  | .nan => true
  | _ => false

/-- Numeric equality of modelled JavaScript numbers: rationals compare by
value, infinities by sign; NaN is equal to itself here (this is mathematical
equality of model values, not the JavaScript `===` on NaN). -/
def jveq : JsNum → JsNum → Prop
  | .num a, .num b => a.veq b
  | .nan, .nan => True
  | .inf p, .inf r => p = r
  | _, _ => False

instance (x y : JsNum) : Decidable (jveq x y) := by
  cases x <;> cases y <;> simp only [jveq] <;> infer_instance

/-- True exactly on the ASCII decimal digits, as the regular-expression
class `\d` and the numeric grammars of ECMAScript are. -/
def isDigitChar (c : Char) : Bool := '0' ≤ c && c ≤ '9'

/-- The decimal digit character for a remainder `r < 10`. -/
def decDigit (r : Nat) : Char :=
  if r = 0 then '0' else if r = 1 then '1' else if r = 2 then '2'
  else if r = 3 then '3' else if r = 4 then '4' else if r = 5 then '5'
  else if r = 6 then '6' else if r = 7 then '7' else if r = 8 then '8' else '9'

/-- Decimal digits, least significant first, by structural recursion on a
fuel argument so that the kernel can evaluate it; `n` itself is always
enough fuel since the value shrinks by a factor of ten each step. -/
def lsbDigitsAux : Nat → Nat → List Char
  | 0, _ => []
  | fuel + 1, n => if n = 0 then [] else decDigit (n % 10) :: lsbDigitsAux fuel (n / 10)

/-- Decimal digits of a natural number, least significant first (empty for 0). -/
def lsbDigits (n : Nat) : List Char := lsbDigitsAux n n

/-- Decimal digits of a natural number, most significant first; empty for 0. -/
def digitsOf (n : Nat) : List Char := (lsbDigits n).reverse

/-- Multiplicity counter by structural recursion on fuel (`n` is enough). -/
def factorMultAux : Nat → Nat → Nat → Nat
  | 0, _, _ => 0
  | fuel + 1, p, n =>
      if 2 ≤ p ∧ n ≠ 0 ∧ n % p = 0 then 1 + factorMultAux fuel p (n / p) else 0

/-- Multiplicity of `p` in `n` (how many times `p` divides `n`); 0 when the
question is degenerate (`p < 2` or `n = 0`). -/
def factorMult (p n : Nat) : Nat := factorMultAux n p n

/-- Drops trailing `'0'` characters. -/
def stripZeros (l : List Char) : List Char := (l.reverse.dropWhile (· == '0')).reverse

/-- Renders a nonzero fraction the way ECMAScript `Number::toString` renders
a positive finite double with significant-digit list `D` and decimal-point
position `n`: plain positional notation while `-6 < n ≤ 21`, scientific
notation outside that window.  The digits are the exact decimal digits of
the value (every double is a dyadic rational, so its denominator factors
over 2 and 5 and the expansion terminates; other denominators, which no
double value and no run of this program produces, still yield a well-formed
numeral but are otherwise unspecified).  The sign is handled by the caller. -/
def posRatDigits (q : Frac) : List Char :=
  let den := q.d.toNat
  let e := max (factorMult 2 den) (factorMult 5 den)
  let N := q.n.natAbs * (10 ^ e / den)
  if N = 0 then ['0']
  else
    let ds := digitsOf N
    let D := stripZeros ds
    let k := D.length
    let n : ℤ := (ds.length : ℤ) - (e : ℤ)
    if (k : ℤ) ≤ n ∧ n ≤ 21 then D ++ List.replicate (n - k).toNat '0'
    else if 0 < n ∧ n ≤ 21 then D.take n.toNat ++ '.' :: D.drop n.toNat
    else if -6 < n ∧ n ≤ 0 then '0' :: '.' :: (List.replicate (-n).toNat '0' ++ D)
    else
      (D.take 1 ++ (if k = 1 then [] else '.' :: D.drop 1))
        ++ 'e' :: (if 0 < n - 1 then '+' else '-') :: digitsOf (n - 1).natAbs

/-- Model of the ECMAScript number-to-string conversion (as used by the
template literals in the source and by `String(x)`). -/
def jsToString : JsNum → String
  | .nan => "NaN"
  | .inf true => "Infinity"
  | .inf false => "-Infinity"
  | .num q =>
      if q.n = 0 then "0"
      else String.mk ((if q.n < 0 then ['-'] else []) ++ posRatDigits q)

/-- The characters removed by `String.prototype.trim` (ECMAScript WhiteSpace
and line terminators; the uncommon Unicode space characters beyond NBSP are
omitted, as nothing in this program can produce them). -/
def isJsWhitespace (c : Char) : Bool :=
  c == ' ' || c == '\t' || c == '\n' || c == '\r' || c == '\x0b' || c == '\x0c' || c == ' '

/-- Model of `text.trim()` on the character list. -/
def jsTrimList (cs : List Char) : List Char :=
  ((cs.dropWhile isJsWhitespace).reverse.dropWhile isJsWhitespace).reverse

/-- The body of the anchored regular expression used by the source after an
optional leading minus: a run of digits, then optionally a single dot
followed by digits only (so it accepts the empty body, a bare dot, and
ordinary decimal numerals, and rejects anything else). -/
def numTokBody (cs : List Char) : Bool :=
  match cs.dropWhile isDigitChar with
  | [] => true
  | '.' :: r => r.all isDigitChar
  | _ => false

/-- Decision procedure for the anchored test of the source. -/
def numTokCore (cs : List Char) : Bool :=
  match cs with
  | '-' :: r => numTokBody r
  | r => numTokBody r

/-- String form of the anchored regular-expression test. -/
def isNumTok (s : String) : Bool := numTokCore s.data

/-- Embeds `NumberHandler.extractFirstWord` from the source: the first
element of `text.trim().split(' ')` is exactly the prefix of the trimmed
text up to the first space character, and `word.length === 0` is emptiness
of that prefix. -/
def NumberHandler.extractFirstWord (text : String) : String :=
  let word := (jsTrimList text.data).takeWhile (fun c => c != ' ')
  if word = [] then ""
  else if numTokCore word then String.mk word else ""

/-- Numeric value of a digit run (most significant first). -/
def digitsVal (ds : List Char) : ℕ := ds.foldl (fun a c => 10 * a + (c.toNat - 48)) 0

/-- Parses an optional decimal exponent part; when the `e` is not followed
by at least one digit the exponent is not consumed (`orig` is returned), as
in the ECMAScript longest-valid-prefix rule. -/
def parseExpAfterE (orig r : List Char) : ℤ × List Char :=
  match r with
  | '-' :: r2 =>
      let ds := r2.takeWhile isDigitChar
      if ds = [] then (0, orig) else (-(digitsVal ds : ℤ), r2.drop ds.length)
  | '+' :: r2 =>
      let ds := r2.takeWhile isDigitChar
      if ds = [] then (0, orig) else ((digitsVal ds : ℤ), r2.drop ds.length)
  | r2 =>
      let ds := r2.takeWhile isDigitChar
      if ds = [] then (0, orig) else ((digitsVal ds : ℤ), r2.drop ds.length)

/-- Parses an optional `e`/`E` exponent. -/
def parseExp : List Char → ℤ × List Char
  | 'e' :: r => parseExpAfterE ('e' :: r) r
  | 'E' :: r => parseExpAfterE ('E' :: r) r
  | r => (0, r)

/-- Parses an unsigned decimal numeral (`Infinity`, or digits with optional
fraction and exponent), returning its value and the unconsumed rest; `none`
when no numeral starts the input. -/
def parseUnsigned (cs : List Char) : Option (JsNum × List Char) :=
  match cs with
  | 'I' :: 'n' :: 'f' :: 'i' :: 'n' :: 'i' :: 't' :: 'y' :: rest => some (.inf true, rest)
  | _ =>
    let ds := cs.takeWhile isDigitChar
    let r1 := cs.drop ds.length
    let fr : List Char × List Char :=
      match r1 with
      | '.' :: r => (r.takeWhile isDigitChar, (r.dropWhile isDigitChar))
      | _ => ([], r1)
    let fs := fr.1
    if ds = [] ∧ fs = [] then none
    else
      let exr := parseExp fr.2
      let mant : Frac := frc ((digitsVal ds * 10 ^ fs.length + digitsVal fs : ℕ) : ℤ) (10 ^ fs.length)
      let v : Frac :=
        if 0 ≤ exr.1 then mant.mul (frc ((10 ^ exr.1.toNat : ℕ) : ℤ) 1)
        else mant.mul (frc 1 (10 ^ (-exr.1).toNat))
      some (.ofFrac v, exr.2)

/-- Parses an optionally signed numeral. -/
def parseSigned (cs : List Char) : Option (JsNum × List Char) :=
  match cs with
  | '-' :: r => (parseUnsigned r).map (fun p => (jneg p.1, p.2))
  | '+' :: r => parseUnsigned r
  | r => parseUnsigned r

/-- Model of the global `parseFloat`: skip leading whitespace, read the
longest valid numeral prefix, NaN when there is none. -/
def jsParseFloat (s : String) : JsNum :=
  match parseSigned (s.data.dropWhile isJsWhitespace) with
  | none => .nan
  | some p => p.1

/-- Model of the `Number(...)` coercion on strings: the whole trimmed text
must be a numeral; the empty (or all-whitespace) string coerces to zero.
The hexadecimal, octal and binary forms are omitted: no string this program
stores can take those shapes. -/
def jsNumber (s : String) : JsNum :=
  let t := jsTrimList s.data
  if t = [] then .num (frc 0 1)
  else
    match parseSigned t with
    | some (v, []) => v
    | _ => .nan

/-- Embeds `NumberHandler.precise`: `Math.round(num * 1e8) / 1e8`. -/
def NumberHandler.precise (num : JsNum) : JsNum :=
  jdiv (jround (jmul num (JsNum.num (frc 100000000 1)))) (JsNum.num (frc 100000000 1))

/-- Model of the global `isFinite` (false on NaN and the infinities). -/
def jisFinite : JsNum → Bool
  | .num _ => true
  | _ => false

/-- Embeds `NumberHandler.isValidNumber`: `!isNaN(num) && isFinite(num)`. -/
def NumberHandler.isValidNumber (num : JsNum) : Bool := !num.isNaN && jisFinite num

/-- Embeds `NumberHandler.incrementIfValid`.  `text.length === 0` is
emptiness of the string, and the template literal is the number-to-string
conversion. -/
def NumberHandler.incrementIfValid (text : String) (delta : JsNum) : String :=
  if text = "" then jsToString delta
  else
    let num := jadd (jsParseFloat text) delta
    if NumberHandler.isValidNumber num then jsToString (NumberHandler.precise num) else "0"

namespace App

/-- The two-valued axis selector of the source (x or y). -/
inductive Axis where
  | x
  | y
deriving DecidableEq

/-- The Session state of the source (`State` in App.tsx). -/
structure State where
  axis : Axis
  previousPosition : String
  offsetStart : String
  offsetEnd : String
  result : String
  finished : Bool
deriving DecidableEq

/-- The action union of the source (`Action` in App.tsx); increment payloads
are JavaScript numbers. -/
inductive Action where
  | setAxis (payload : Axis)
  | setPreviousPosition (payload : String)
  | setOffsetStart (payload : String)
  | setOffsetEnd (payload : String)
  | setResult (payload : String)
  | setFinished (payload : Bool)
  | incrementPreviousPosition (payload : JsNum)
  | incrementOffsetStart (payload : JsNum)
  | incrementOffsetEnd (payload : JsNum)
  | reset

/-- The initial state of the source. -/
def initialState : State :=
  { axis := Axis.x
    previousPosition := ""
    offsetStart := ""
    offsetEnd := ""
    result := ""
    finished := false }

/-- Embeds the reducer of the source.  The TypeScript `default` branch is
unreachable because the action union is exhaustive. -/
def reducer (state : State) (action : Action) : State :=
  match action with
  | .setAxis payload => { state with axis := payload }
  | .setPreviousPosition payload => { state with previousPosition := payload }
  | .setOffsetStart payload => { state with offsetStart := payload }
  | .setOffsetEnd payload => { state with offsetEnd := payload }
  | .setResult payload => { state with result := payload }
  | .setFinished payload => { state with finished := payload }
  | .incrementPreviousPosition payload =>
      { state with previousPosition := NumberHandler.incrementIfValid state.previousPosition payload }
  | .incrementOffsetStart payload =>
      { state with offsetStart := NumberHandler.incrementIfValid state.offsetStart payload }
  | .incrementOffsetEnd payload =>
      { state with offsetEnd := NumberHandler.incrementIfValid state.offsetEnd payload }
  | .reset => initialState

/-- The fixed step of the increment/decrement triggers (`const INCREMENT = 0.1`). -/
def INCREMENT : Frac := frc 1 10

/-- The number computed by the `calculateCenter` handler:
`precise(prev - shift)` with `shift = (o1 + o2) / 2 - o1`, all three fields
coerced with `Number(...)`. -/
def centerValue (s : State) : JsNum :=
  let o1 := jsNumber s.offsetStart
  let o2 := jsNumber s.offsetEnd
  let prev := jsNumber s.previousPosition
  let shift := jsub (jdiv (jadd o1 o2) (JsNum.num (frc 2 1))) o1
  NumberHandler.precise (jsub prev shift)

/-- Embeds the `calculateCenter` handler as its effect on Session state: it
dispatches `SET_RESULT` with the textual form of the computed number and
then `SET_FINISHED true`.  The clipboard write is fire-and-forget and does
not touch Session, so it has no counterpart here. -/
def calculateCenter (s : State) : State :=
  reducer (reducer s (.setResult (jsToString (centerValue s)))) (.setFinished true)

/-- The three editable numeric fields. -/
inductive Field where
  | prev
  | ostart
  | oend
deriving DecidableEq

/-- The set-field action for a given field. -/
def setAction (f : Field) (v : String) : Action :=
  match f with
  | .prev => .setPreviousPosition v
  | .ostart => .setOffsetStart v
  | .oend => .setOffsetEnd v

/-- The increment action for a given field. -/
def incAction (f : Field) (d : JsNum) : Action :=
  match f with
  | .prev => .incrementPreviousPosition d
  | .ostart => .incrementOffsetStart d
  | .oend => .incrementOffsetEnd d

/-- The discrete user events of the interface and what they dispatch:
typing routes the raw input text through the numeric-token extractor before
the set-field action (the `onChange` handler of `Row`); the arrow triggers
dispatch an increment of plus or minus `INCREMENT`; the axis cells dispatch
`SET_AXIS`; the calculate button runs `calculateCenter`; clicking the result
overlay or its continue button dispatches `SET_FINISHED false`; the reset
button dispatches `RESET`. -/
inductive UIEvent where
  | typeRaw (f : Field) (raw : String)
  | clickInc (f : Field) (up : Bool)
  | pickAxis (a : Axis)
  | clickCalculate
  | clickDismiss
  | clickReset

/-- One user event, as a state transition. -/
def uiStep (s : State) (e : UIEvent) : State :=
  match e with
  | .typeRaw f raw => reducer s (setAction f (NumberHandler.extractFirstWord raw))
  | .clickInc f up => reducer s (incAction f (.num (if up then INCREMENT else INCREMENT.neg)))
  | .pickAxis a => reducer s (.setAxis a)
  | .clickCalculate => calculateCenter s
  | .clickDismiss => reducer s (.setFinished false)
  | .clickReset => reducer s .reset

/-- The states a session can actually reach from the initial state through
user events. -/
def Reachable (s : State) : Prop := ∃ l : List UIEvent, s = List.foldl uiStep initialState l

end App

/-- The rational value carried by a modelled number, when it is finite. -/
def jsVal : JsNum → Option ℚ
  | .num q => some q.val
  | _ => none

/-- A text field is acceptable when it passes the anchored numeric-token
test of the source (the empty string passes it), or is the JavaScript
rendering of some number value. -/
def FieldOk (t : String) : Prop := isNumTok t = true ∨ ∃ x : JsNum, t = jsToString x

/-- All three editable text fields of a session are acceptable. -/
def App.GoodFields (s : App.State) : Prop :=
  FieldOk s.previousPosition ∧ FieldOk s.offsetStart ∧ FieldOk s.offsetEnd

/-- A 302-digit numeral (one followed by 301 zeros), used as a concrete
typed input whose value is within double range while a hundred million
times it is not. -/
def bigNumeral : String := String.mk ('1' :: List.replicate 301 '0')

/-- The exact value of the IEEE-754 double-precision evaluation of
`0.1 + 0.2 - 0.3`: the nearest doubles to the three constants leave the
well-known residue `2 ^ (-54) = 5.551115123125783e-17` after the two
correctly-rounded operations. -/
def fpResidue : Frac := frc 1 (2 ^ 54)

/-! ### Value lemmas for the fraction model -/

theorem Frac.dcast_pos (a : Frac) : (0 : ℚ) < (a.d : ℚ) := by exact_mod_cast a.dpos

theorem Frac.dcast_ne (a : Frac) : ((a.d : ℚ)) ≠ 0 := ne_of_gt a.dcast_pos

theorem Frac.val_add (a b : Frac) : (a.add b).val = a.val + b.val := by
  unfold Frac.add Frac.val
  have ha := a.dcast_ne
  have hb := b.dcast_ne
  push_cast
  field_simp

theorem Frac.val_neg (a : Frac) : a.neg.val = -a.val := by
  unfold Frac.neg Frac.val
  push_cast
  ring

theorem Frac.val_mul (a b : Frac) : (a.mul b).val = a.val * b.val := by
  unfold Frac.mul Frac.val
  have ha := a.dcast_ne
  have hb := b.dcast_ne
  push_cast
  field_simp

theorem Frac.val_div (a b : Frac) (h : b.n ≠ 0) : (a.div b).val = a.val / b.val := by
  unfold Frac.div Frac.val
  rw [dif_neg h]
  have hb : ((b.n : ℚ)) ≠ 0 := Int.cast_ne_zero.mpr h
  have had := a.dcast_ne
  have hbd := b.dcast_ne
  rcases lt_or_gt_of_ne h with hneg | hpos
  · rw [Int.sign_eq_neg_one_iff_neg.mpr hneg]
    push_cast
    rw [abs_of_neg (show ((b.n : ℚ)) < 0 by exact_mod_cast hneg)]
    field_simp
  · rw [Int.sign_eq_one_iff_pos.mpr hpos]
    push_cast
    rw [abs_of_pos (show (0 : ℚ) < ((b.n : ℚ)) by exact_mod_cast hpos)]
    field_simp

theorem Frac.ble_iff (a b : Frac) : a.ble b = true ↔ a.val ≤ b.val := by
  unfold Frac.ble Frac.val
  rw [div_le_div_iff₀ a.dcast_pos b.dcast_pos]
  simp only [decide_eq_true_eq]
  exact_mod_cast Iff.rfl

theorem Frac.floor_val (a : Frac) : ⌊a.val⌋ = a.floor := by
  unfold Frac.val Frac.floor
  rw [show a.d = ((a.d.toNat : ℕ) : ℤ) from (Int.toNat_of_nonneg a.dpos.le).symm]
  rw [show (((a.d.toNat : ℕ) : ℤ) : ℚ) = ((a.d.toNat : ℕ) : ℚ) by push_cast; ring]
  exact Rat.floor_intCast_div_natCast a.n a.d.toNat

theorem Frac.veq_iff (a b : Frac) : a.veq b ↔ a.val = b.val := by
  unfold Frac.veq Frac.val
  rw [div_eq_div_iff a.dcast_ne b.dcast_ne]
  exact_mod_cast Iff.rfl

theorem frc_val (n : ℤ) (d : ℕ) (h : d ≠ 0) : (frc n d).val = (n : ℚ) / (d : ℚ) := by
  unfold frc
  rw [dif_pos (by exact_mod_cast Nat.pos_of_ne_zero h)]
  unfold Frac.val
  push_cast
  ring

theorem OVERFLOW_val : OVERFLOW.val = 2 ^ 1024 := by
  unfold OVERFLOW
  rw [frc_val _ _ one_ne_zero, Nat.cast_one, div_one, Int.cast_natCast, Nat.cast_pow,
    Nat.cast_pow, Nat.cast_ofNat, ← pow_mul]

theorem JsNum.ofFrac_eq_num (q : Frac) (h1 : -(2 ^ 1024 : ℚ) < q.val) (h2 : q.val < 2 ^ 1024) :
    JsNum.ofFrac q = .num q := by
  unfold JsNum.ofFrac
  have hA : ¬ (q.ble (Frac.neg OVERFLOW) = true) := by
    rw [Frac.ble_iff, Frac.val_neg, OVERFLOW_val]
    intro hc
    linarith
  have hB : ¬ (OVERFLOW.ble q = true) := by
    rw [Frac.ble_iff, OVERFLOW_val]
    intro hc
    linarith
  rw [if_neg hA, if_neg hB]

/-! ### NaN propagation through the arithmetic -/

theorem jadd_nan_left (x : JsNum) : jadd .nan x = .nan := by cases x <;> rfl

theorem jadd_nan_right (x : JsNum) : jadd x .nan = .nan := by cases x <;> rfl

theorem jsub_nan_left (x : JsNum) : jsub .nan x = .nan := jadd_nan_left _

theorem jsub_nan_right (x : JsNum) : jsub x .nan = .nan := jadd_nan_right x

theorem jmul_nan_left (x : JsNum) : jmul .nan x = .nan := by cases x <;> rfl

theorem jdiv_nan_left (x : JsNum) : jdiv .nan x = .nan := by cases x <;> rfl

theorem precise_nan : NumberHandler.precise .nan = .nan := rfl

theorem isNaN_iff (x : JsNum) : x.isNaN = true ↔ x = .nan := by
  cases x <;> simp [JsNum.isNaN]

/-! ### Characterization of `precise` on in-range values -/

theorem precise_val (q : Frac) (h : |q.val * 10 ^ 8| < 2 ^ 1024) :
    jsVal (NumberHandler.precise (JsNum.num q)) =
      some (((⌊q.val * 10 ^ 8 + 1 / 2⌋ : ℤ) : ℚ) / 10 ^ 8) := by
  have habs := abs_lt.mp h
  have e8val : (frc 100000000 1).val = 10 ^ 8 := by
    rw [frc_val _ _ one_ne_zero]
    norm_num
  have hmval : (q.mul (frc 100000000 1)).val = q.val * 10 ^ 8 := by
    rw [Frac.val_mul, e8val]
  have hmul : jmul (JsNum.num q) (JsNum.num (frc 100000000 1)) = .num (q.mul (frc 100000000 1)) := by
    show JsNum.ofFrac (q.mul (frc 100000000 1)) = _
    exact JsNum.ofFrac_eq_num _ (by rw [hmval]; exact habs.1) (by rw [hmval]; exact habs.2)
  unfold NumberHandler.precise
  rw [hmul]
  simp only [jround]
  have hfl : Frac.floor ((q.mul (frc 100000000 1)).add (frc 1 2)) = ⌊q.val * 10 ^ 8 + 1 / 2⌋ := by
    rw [← Frac.floor_val, Frac.val_add, hmval, frc_val 1 2 (by norm_num)]
    norm_num
  rw [hfl]
  set R : ℤ := ⌊q.val * 10 ^ 8 + 1 / 2⌋ with hR
  have hRup : (R : ℚ) ≤ q.val * 10 ^ 8 + 1 / 2 := Int.floor_le _
  have hRdown : q.val * 10 ^ 8 + 1 / 2 - 1 < (R : ℚ) := by
    have h2 := Int.lt_floor_add_one (q.val * 10 ^ 8 + 1 / 2)
    rw [← hR] at h2
    linarith
  have hB : (1 : ℚ) ≤ 2 ^ 1024 := one_le_pow₀ one_le_two
  simp only [jdiv]
  rw [if_neg (show ¬ ((frc 100000000 1).n = 0) by decide)]
  have hdn : (frc 100000000 1).n ≠ 0 := by decide
  have hrv : ((frc R 1).div (frc 100000000 1)).val = (R : ℚ) / 10 ^ 8 := by
    rw [Frac.val_div _ _ hdn, e8val, frc_val R 1 one_ne_zero]
    norm_num
  have hbound1 : ((frc R 1).div (frc 100000000 1)).val < 2 ^ 1024 := by
    rw [hrv, div_lt_iff₀ (show (0 : ℚ) < 10 ^ 8 by norm_num)]
    nlinarith [habs.2]
  have hbound2 : -(2 ^ 1024 : ℚ) < ((frc R 1).div (frc 100000000 1)).val := by
    rw [hrv, lt_div_iff₀ (show (0 : ℚ) < 10 ^ 8 by norm_num)]
    nlinarith [habs.1]
  rw [JsNum.ofFrac_eq_num _ hbound2 hbound1]
  simp only [jsVal]
  rw [hrv]

/-! ### The reachable-state field invariant -/

theorem fieldOk_extract (raw : String) : FieldOk (NumberHandler.extractFirstWord raw) := by
  unfold NumberHandler.extractFirstWord
  dsimp only
  split
  · exact Or.inl (by decide)
  · split
    · next h => exact Or.inl h
    · exact Or.inl (by decide)

theorem fieldOk_increment (t : String) (d : JsNum) : FieldOk (NumberHandler.incrementIfValid t d) := by
  unfold NumberHandler.incrementIfValid
  dsimp only
  split
  · exact Or.inr ⟨d, rfl⟩
  · split
    · exact Or.inr ⟨_, rfl⟩
    · exact Or.inr ⟨JsNum.num (frc 0 1), by decide⟩

theorem goodFields_initial : App.GoodFields App.initialState :=
  ⟨Or.inl (by decide), Or.inl (by decide), Or.inl (by decide)⟩

theorem goodFields_step (s : App.State) (e : App.UIEvent) (h : App.GoodFields s) :
    App.GoodFields (App.uiStep s e) := by
  obtain ⟨h1, h2, h3⟩ := h
  cases e with
  | typeRaw f raw =>
      cases f with
      | prev => exact ⟨fieldOk_extract raw, h2, h3⟩
      | ostart => exact ⟨h1, fieldOk_extract raw, h3⟩
      | oend => exact ⟨h1, h2, fieldOk_extract raw⟩
  | clickInc f up =>
      cases f with
      | prev => exact ⟨fieldOk_increment _ _, h2, h3⟩
      | ostart => exact ⟨h1, fieldOk_increment _ _, h3⟩
      | oend => exact ⟨h1, h2, fieldOk_increment _ _⟩
  | pickAxis a => exact ⟨h1, h2, h3⟩
  | clickCalculate => exact ⟨h1, h2, h3⟩
  | clickDismiss => exact ⟨h1, h2, h3⟩
  | clickReset => exact goodFields_initial

/-! ### Further helper lemmas -/

theorem jveq_refl (x : JsNum) : jveq x x := by
  cases x
  · exact rfl
  · exact trivial
  · exact rfl

theorem centerValue_nan (s : App.State)
    (h : jsNumber s.previousPosition = .nan ∨ jsNumber s.offsetStart = .nan ∨
      jsNumber s.offsetEnd = .nan) :
    App.centerValue s = .nan := by
  unfold App.centerValue
  dsimp only
  rcases h with h | h | h
  · rw [h, jsub_nan_left, precise_nan]
  · rw [h, jadd_nan_left, jdiv_nan_left, jsub_nan_left, jsub_nan_right, precise_nan]
  · rw [h, jadd_nan_right, jdiv_nan_left, jsub_nan_left, jsub_nan_right, precise_nan]

/-! ### Claim theorems -/

/-- Claim C1: for every Session, calculate coerces the three text fields to
numbers, computes shift as the midpoint offset minus offsetStart, stores the
textual form of the rounded difference in result and sets finished; in
particular (120, 20, 60) yields "100" and (0, -10, 10) yields "-10". -/
theorem calculate_formula_spec : ∀ s : App.State,
    (App.calculateCenter s).result =
      jsToString (NumberHandler.precise (jsub (jsNumber s.previousPosition)
        (jsub (jdiv (jadd (jsNumber s.offsetStart) (jsNumber s.offsetEnd)) (JsNum.num (frc 2 1)))
          (jsNumber s.offsetStart)))) ∧
    (App.calculateCenter s).finished = true ∧
    (App.calculateCenter { App.initialState with
        previousPosition := "120", offsetStart := "20", offsetEnd := "60" }).result = "100" ∧
    (App.calculateCenter { App.initialState with
        previousPosition := "0", offsetStart := "-10", offsetEnd := "10" }).result = "-10" :=
  fun _ => ⟨rfl, rfl, by decide, by decide⟩

/-- Claim C2, counterexample: a Session with an empty offset field does not
produce a NaN-like result, because `Number` coerces the empty string to 0;
with previousPosition "1" and both offsets empty the result is "1". -/
theorem calculate_empty_fields_cex :
    ({ App.initialState with previousPosition := "1" } : App.State).offsetStart = "" ∧
    (App.calculateCenter { App.initialState with previousPosition := "1" }).result = "1" ∧
    ("1" : String) ≠ "NaN" :=
  ⟨rfl, by decide, by decide⟩

/-- Claim C2 (amended): a field that is non-empty yet unparseable coerces to
NaN, and one such field makes the stored result the text "NaN"; empty
fields instead coerce to 0 and contribute numerically. -/
theorem calculate_nan_fields (s : App.State)
    (h : (jsNumber s.previousPosition).isNaN = true ∨ (jsNumber s.offsetStart).isNaN = true ∨
      (jsNumber s.offsetEnd).isNaN = true) :
    (App.calculateCenter s).result = "NaN" := by
  have hc : App.centerValue s = .nan := by
    refine centerValue_nan s ?_
    rcases h with h | h | h
    · exact Or.inl ((isNaN_iff _).mp h)
    · exact Or.inr (Or.inl ((isNaN_iff _).mp h))
    · exact Or.inr (Or.inr ((isNaN_iff _).mp h))
  show jsToString (App.centerValue s) = "NaN"
  rw [hc]
  rfl

/-- Witness for C2: previousPosition "-" is unparseable and calculate
stores "NaN". -/
theorem calculate_nan_fields_witness :
    (App.calculateCenter { App.initialState with previousPosition := "-" }).result = "NaN" :=
  calculate_nan_fields _ (Or.inl (by decide))

/-- Claim C3 (amended): the extractor trims surrounding whitespace but
splits at the space character only (not at every whitespace character);
for every input, the first space-separated token is returned unchanged
exactly when it is non-empty and passes the anchored optional-minus digits
optional-dot digits test, and the result is the empty string otherwise, as
the six listed examples illustrate. -/
theorem extract_spec :
    (∀ s : String,
      NumberHandler.extractFirstWord s =
        if (jsTrimList s.data).takeWhile (fun c => c != ' ') = [] then ""
        else if numTokCore ((jsTrimList s.data).takeWhile (fun c => c != ' ')) = true then
          String.mk ((jsTrimList s.data).takeWhile (fun c => c != ' '))
        else "") ∧
    (∀ s : String,
      NumberHandler.extractFirstWord s = "" ∨
        (NumberHandler.extractFirstWord s =
            String.mk ((jsTrimList s.data).takeWhile (fun c => c != ' ')) ∧
          isNumTok (NumberHandler.extractFirstWord s) = true)) ∧
    NumberHandler.extractFirstWord "12.5" = "12.5" ∧
    NumberHandler.extractFirstWord "-3." = "-3." ∧
    NumberHandler.extractFirstWord "abc" = "" ∧
    NumberHandler.extractFirstWord "  7 and more" = "7" ∧
    NumberHandler.extractFirstWord "" = "" ∧
    NumberHandler.extractFirstWord "12.3.4" = "" := by
  refine ⟨fun s => rfl, ?_, by decide, by decide, by decide, by decide, by decide, by decide⟩
  intro s
  unfold NumberHandler.extractFirstWord
  dsimp only
  split
  · exact Or.inl rfl
  · split
    · next h => exact Or.inr ⟨rfl, h⟩
    · exact Or.inl rfl

/-- Claim C3, counterexample: on a first token containing a tab the claimed
whitespace splitting would return "7", but the code splits at spaces only,
the token "7 tab x" fails the anchored test, and the result is empty. -/
theorem extract_tab_cex :
    NumberHandler.extractFirstWord "7\tx" = "" ∧ ("" : String) ≠ "7" :=
  ⟨by decide, by decide⟩

/-- Claim C4 (amended): increment on an empty field renders the delta
itself; on a non-empty field it parses the text, adds the delta, and when
the sum is NaN or infinite stores the literal "0", otherwise stores the
rounded sum as text.  The rounding happens after the finiteness check, so a
delta of 1e308 added to "5" passes the check with a finite sum, overflows
inside the rounding, and stores "Infinity", not "0". -/
theorem increment_spec :
    (∀ d : JsNum, NumberHandler.incrementIfValid "" d = jsToString d) ∧
    (∀ (t : String) (d : JsNum), t ≠ "" →
      NumberHandler.incrementIfValid t d =
        if NumberHandler.isValidNumber (jadd (jsParseFloat t) d) = true then
          jsToString (NumberHandler.precise (jadd (jsParseFloat t) d))
        else "0") ∧
    NumberHandler.incrementIfValid "" (JsNum.num App.INCREMENT) = "0.1" ∧
    NumberHandler.incrementIfValid "5" (JsNum.num App.INCREMENT.neg) = "4.9" ∧
    NumberHandler.incrementIfValid "5" (JsNum.num (frc (((10 ^ 154 : ℕ) ^ 2 : ℕ) : ℤ) 1)) =
      "Infinity" := by
  refine ⟨fun d => rfl, ?_, by decide, by decide, by decide⟩
  intro t d ht
  unfold NumberHandler.incrementIfValid
  rw [if_neg ht]

/-- Witness for C4: the non-empty branch at field "7" and delta 0.1. -/
theorem increment_spec_witness :
    NumberHandler.incrementIfValid "7" (JsNum.num App.INCREMENT) =
      if NumberHandler.isValidNumber (jadd (jsParseFloat "7") (JsNum.num App.INCREMENT)) = true
      then jsToString (NumberHandler.precise (jadd (jsParseFloat "7") (JsNum.num App.INCREMENT)))
      else "0" :=
  increment_spec.2.1 "7" (JsNum.num App.INCREMENT) (by decide)

/-- Claim C4, counterexample: increment of "5" by 1e308 stores "Infinity"
rather than the claimed "0", because 5 + 1e308 is still finite and the
overflow only happens inside the rounding, after the guard. -/
theorem increment_overflow_cex :
    NumberHandler.incrementIfValid "5" (JsNum.num (frc (((10 ^ 154 : ℕ) ^ 2 : ℕ) : ℤ) 1)) =
      "Infinity" ∧
    ("Infinity" : String) ≠ "0" :=
  ⟨by decide, by decide⟩

/-- Claim C5: reset returns the canonical initial Session from any state:
axis horizontal, all four text fields empty, finished false. -/
theorem reset_canonical : ∀ s : App.State,
    App.reducer s .reset = App.initialState ∧
    App.initialState = ⟨App.Axis.x, "", "", "", "", false⟩ :=
  fun _ => ⟨rfl, rfl⟩

/-- Claim C6 (amended): in every reachable Session each editable field
either passes the anchored numeric-token test (the empty string does) or is
the JavaScript rendering of some number value; the pattern-only form of the
claim fails because increment can render values whose text falls outside
the pattern, such as "Infinity". -/
theorem reachable_fields_ok (s : App.State) (h : App.Reachable s) : App.GoodFields s := by
  obtain ⟨l, rfl⟩ := h
  suffices H : ∀ (l : List App.UIEvent) (s0 : App.State), App.GoodFields s0 →
      App.GoodFields (List.foldl App.uiStep s0 l) from H l App.initialState goodFields_initial
  intro l
  induction l with
  | nil => exact fun s0 h0 => h0
  | cons e t ih => exact fun s0 h0 => ih _ (goodFields_step s0 e h0)

/-- Witness for C6: the invariant at a concrete reachable state. -/
theorem reachable_fields_ok_witness :
    App.GoodFields (App.uiStep App.initialState (.typeRaw .prev "12")) :=
  reachable_fields_ok _ ⟨[App.UIEvent.typeRaw App.Field.prev "12"], rfl⟩

/-- Claim C6, counterexample: typing a 302-digit numeral (which the
extractor accepts) and clicking increment reaches a Session whose
offsetStart is the literal "Infinity", which fails the claimed
optionally-signed decimal pattern. -/
theorem reachable_infinity_cex :
    App.Reachable (App.uiStep (App.uiStep App.initialState (.typeRaw .ostart bigNumeral))
      (.clickInc .ostart true)) ∧
    (App.uiStep (App.uiStep App.initialState (.typeRaw .ostart bigNumeral))
      (.clickInc .ostart true)).offsetStart = "Infinity" ∧
    isNumTok "Infinity" = false :=
  ⟨⟨[.typeRaw .ostart bigNumeral, .clickInc .ostart true], rfl⟩, by decide, by decide⟩

/-- Claim C7: dismissing the result display turns finished off and changes
nothing else in the Session. -/
theorem dismiss_frame (s : App.State) (_h : s.finished = true) :
    App.reducer s (.setFinished false) = { s with finished := false } := rfl

/-- Witness for C7: dismissal at a concrete finished Session. -/
theorem dismiss_frame_witness :
    App.reducer ⟨App.Axis.x, "1", "2", "3", "8", true⟩ (.setFinished false) =
      ⟨App.Axis.x, "1", "2", "3", "8", false⟩ :=
  dismiss_frame _ rfl

/-- Claim C8: two Sessions agreeing on the three text fields compute the
same number and the same result text under calculate, whatever their axes. -/
theorem axis_noninterference (s₁ s₂ : App.State)
    (hp : s₁.previousPosition = s₂.previousPosition)
    (ho : s₁.offsetStart = s₂.offsetStart)
    (he : s₁.offsetEnd = s₂.offsetEnd) :
    jveq (App.centerValue s₁) (App.centerValue s₂) ∧
      (App.calculateCenter s₁).result = (App.calculateCenter s₂).result := by
  have hc : App.centerValue s₁ = App.centerValue s₂ := by
    unfold App.centerValue
    rw [hp, ho, he]
  constructor
  · rw [hc]
    exact jveq_refl _
  · show jsToString (App.centerValue s₁) = jsToString (App.centerValue s₂)
    rw [hc]

/-- Witness for C8: the x-axis and y-axis Sessions with fields 120, 20, 60. -/
theorem axis_noninterference_witness :
    jveq
      (App.centerValue { App.initialState with
        previousPosition := "120", offsetStart := "20", offsetEnd := "60" })
      (App.centerValue { App.initialState with
        axis := App.Axis.y, previousPosition := "120", offsetStart := "20",
        offsetEnd := "60" }) ∧
    (App.calculateCenter { App.initialState with
        previousPosition := "120", offsetStart := "20", offsetEnd := "60" }).result =
      (App.calculateCenter { App.initialState with
        axis := App.Axis.y, previousPosition := "120", offsetStart := "20",
        offsetEnd := "60" }).result :=
  axis_noninterference _ _ rfl rfl rfl

/-- Claim C9: round8 scales by ten to the eighth, rounds half up to an
integer, and scales back; on the exact residue of the double evaluation of
0.1 + 0.2 - 0.3, namely 2 to the minus 54, it returns exactly zero. -/
theorem round8_spec :
    (∀ q : Frac, |q.val * 10 ^ 8| < 2 ^ 1024 →
      jsVal (NumberHandler.precise (JsNum.num q)) =
        some (((⌊q.val * 10 ^ 8 + 1 / 2⌋ : ℤ) : ℚ) / 10 ^ 8)) ∧
    jveq (NumberHandler.precise (JsNum.num fpResidue)) (JsNum.num (frc 0 1)) :=
  ⟨precise_val, by decide⟩

/-- Witness for C9: the characterization instantiated at the value 3. -/
theorem round8_spec_witness :
    jsVal (NumberHandler.precise (JsNum.num (frc 3 1))) =
      some (((⌊(frc 3 1).val * 10 ^ 8 + 1 / 2⌋ : ℤ) : ℚ) / 10 ^ 8) :=
  round8_spec.1 (frc 3 1) (by
    rw [frc_val 3 1 one_ne_zero, Nat.cast_one, div_one]
    rw [abs_of_pos (by norm_num)]
    norm_num)

/-- Claim C10: each single-field command rewrites exactly its target field
and leaves every other field, including result and finished, unchanged. -/
theorem edit_frame : ∀ (s : App.State) (a : App.Axis) (v : String) (d : JsNum),
    App.reducer s (.setAxis a) = { s with axis := a } ∧
    App.reducer s (.setPreviousPosition v) = { s with previousPosition := v } ∧
    App.reducer s (.setOffsetStart v) = { s with offsetStart := v } ∧
    App.reducer s (.setOffsetEnd v) = { s with offsetEnd := v } ∧
    App.reducer s (.incrementPreviousPosition d) =
      { s with previousPosition := NumberHandler.incrementIfValid s.previousPosition d } ∧
    App.reducer s (.incrementOffsetStart d) =
      { s with offsetStart := NumberHandler.incrementIfValid s.offsetStart d } ∧
    App.reducer s (.incrementOffsetEnd d) =
      { s with offsetEnd := NumberHandler.incrementIfValid s.offsetEnd d } :=
  fun _ _ _ _ => ⟨rfl, rfl, rfl, rfl, rfl, rfl, rfl⟩
